import Mathlib

/-
Verification of the i18n subsystem of the guesseric-bot/website repository
(file i18n.js, class I18n), as a shallow embedding in Lean 4.

Modelling conventions:
* JS strings are Lean `String`s; character-level JS operations (split,
  startsWith, includes) are re-implemented over `String.data` so that they
  compute by kernel reduction.
* The translation tree (parsed JSON) is the inductive `Trans`: a string
  leaf or an object node (association list of fields).  Prototype-inherited
  JS properties (`toString` etc.) are not modelled: `k in value` is field
  membership of the parsed JSON object.
* `fetch` + `response.ok` + `response.json()` are modelled together as an
  environment function `String → Option Trans` (`none` = network error,
  non-ok response or parse failure).
* `localStorage` is an association list plus two failure flags
  (`storageGetFails` / `storageSetFails`) modelling getItem/setItem
  throwing (the code wraps both in try/catch).
* The URL query string is an association list of parameters
  (URLSearchParams get/set/delete).
* The DOM is a list of `Element`s carrying the data-i18n* attributes the
  code reads and the surfaces it writes (textContent/innerHTML,
  placeholder/alt/title attributes).  `document.querySelectorAll` passes
  become a map over that list.  Transient visual state (body opacity,
  loading classes) is not modelled.
-/

set_option maxHeartbeats 1000000

namespace I18n

/-- The character U+007B (left curly brace), used by interpolate's
placeholder syntax. -/
def lbrace : Char := Char.ofNat 123

/-- The character U+007D (right curly brace). -/
def rbrace : Char := Char.ofNat 125

/-- A translation value: a JSON string leaf or a JSON object node.
The translation files are JSON objects of nested strings, which is the
shape the spec's data model prescribes. -/
inductive Trans where
  | str (s : String)
  | obj (fields : List (String × Trans))

/-- JS truthiness of a translation value: the empty string is falsy,
every other string and every object is truthy. -/
def truthy : Trans → Bool
  | Trans.str s => !(s = "")
  | Trans.obj _ => true

/-- JS string coercion of a translation value, as performed by
`element.setAttribute`: a plain object stringifies to "[object Object]". -/
def jsToString : Trans → String
  | Trans.str s => s
  | Trans.obj _ => "[object Object]"

/-- First-match lookup in an association list of strings
(URLSearchParams.get / localStorage.getItem / JS object indexing). -/
def getAssoc : List (String × String) → String → Option String
  | [], _ => none
  | (k, v) :: rest, key => if k = key then some v else getAssoc rest key

/-- Remove every binding of `key` (URLSearchParams.delete). -/
def deleteAssoc : List (String × String) → String → List (String × String)
  | [], _ => []
  | (k, v) :: rest, key =>
    if k = key then deleteAssoc rest key else (k, v) :: deleteAssoc rest key

/-- Set `key` to `value`: replace the first binding and drop duplicates,
append when absent (URLSearchParams.set / localStorage.setItem). -/
def setAssoc : List (String × String) → String → String → List (String × String)
  | [], key, value => [(key, value)]
  | (k, v) :: rest, key, value =>
    if k = key then (key, value) :: deleteAssoc rest key
    else (k, v) :: setAssoc rest key value

/-- Field lookup in an object node (the JS `value[k]` after `k in value`). -/
def lookupField : List (String × Trans) → String → Option Trans
  | [], _ => none
  | (k, v) :: rest, key => if k = key then some v else lookupField rest key

/-- JS `String.prototype.split` with a one-character separator, over char
lists: `"".split(sep)` is `[""]`, consecutive separators produce empty
pieces. -/
def splitChars (sep : Char) : List Char → List (List Char)
  | [] => [[]]
  | c :: cs =>
    if c = sep then [] :: splitChars sep cs
    else
      match splitChars sep cs with
      | [] => [[c]]
      | h :: t => (c :: h) :: t

/-- JS `s.split(sep)` for a one-character separator. -/
def jsSplit (sep : Char) (s : String) : List String :=
  (splitChars sep s.data).map String.mk

/-- JS `String.prototype.startsWith` over char lists. -/
def startsWithChars : List Char → List Char → Bool
  | [], _ => true
  | _ :: _, [] => false
  | p :: ps, c :: cs => p == c && startsWithChars ps cs

/-- JS `s.startsWith(pre)`. -/
def strStartsWith (s pre : String) : Bool := startsWithChars pre.data s.data

/-- JS `s.includes(c)` for a single character. -/
def strContainsChar (s : String) (c : Char) : Bool := s.data.contains c

/-- The key-walking loop of I18n.getTranslation: consume the dot-split
segments one by one; descend while the current value is a (truthy) object
that has the segment as a field, otherwise fail. -/
def walk : List String → Trans → Option Trans
  | [], v => some v
  | _ :: _, Trans.str _ => none
  | k :: ks, Trans.obj fields =>
    match lookupField fields k with
    | some v => walk ks v
    | none => none

/-- I18n.getTranslation: split the key on '.', walk the tree; on any
failure return the key itself as fallback (the code logs a warning and
returns `key`). -/
def getTranslation (translations : Trans) (key : String) : Trans :=
  match walk (jsSplit '.' key) translations with
  | some v => v
  | none => Trans.str key

/-- Modelled from the spec (§4.1 `lookup`): the value at a dot-path,
written as a monadic fold — each segment must select a field of a
container, any miss or non-container aborts.  Used to restate
getTranslation independently of its loop. -/
def stepField (v : Trans) (seg : String) : Option Trans :=
  match v with
  | Trans.str _ => none
  | Trans.obj fields => lookupField fields seg

/-- Spec-side reformulation of lookup for claim C5: the value at the path
when the whole path resolves, else the original dotted key. -/
def getTranslationSpec (translations : Trans) (key : String) : Trans :=
  match (jsSplit '.' key).foldlM stepField translations with
  | some v => v
  | none => Trans.str key

/-- The maximal-munch run of JS word characters (the regex `\w+`, greedy)
at the head of a list, together with the remaining suffix.  The remainder
is packaged with a length bound so that the scanner below terminates. -/
def isWordChar (c : Char) : Bool :=
  ('a' ≤ c && c ≤ 'z') || ('A' ≤ c && c ≤ 'Z') || ('0' ≤ c && c ≤ '9') || c = '_'

/-- Greedy `\w*` munch: the longest word-character run and the rest. -/
def takeWordSub : (l : List Char) → { p : List Char × List Char // p.2.length ≤ l.length }
  | [] => ⟨([], []), Nat.le_refl 0⟩
  | c :: cs =>
    if isWordChar c then
      let p := takeWordSub cs
      ⟨(c :: p.1.1, p.1.2), Nat.le_succ_of_le p.2⟩
    else ⟨([], c :: cs), Nat.le_refl _⟩

/-- Attempt to match `(\w+)\}\}` right after an opening `{{`: a nonempty
word run immediately followed by two closing braces.  Greedy `\w+` needs
no backtracking here because a word character is never a closing brace.
Returns the captured name and the suffix after the match. -/
def matchPh (l : List Char) :
    Option { p : String × List Char // p.2.length + 2 ≤ l.length } :=
  match takeWordSub l with
  | ⟨(w, e1 :: e2 :: r2), hr⟩ =>
    if w = [] then none
    else if e1 = rbrace && e2 = rbrace then
      some ⟨(String.mk w, r2), by simpa using hr⟩
    else none
  | _ => none

/-- The left-to-right scan of JS `text.replace(/\{\{(\w+)\}\}/g, ...)` as
used by I18n.interpolate: at each position try to match a placeholder; on
a match emit the replacement (the variable's value if the lookup is not
undefined, else the matched text itself) and continue after the match; on
no match emit one character and continue. -/
def interpChars (vars : List (String × String)) : List Char → List Char
  | [] => []
  | c :: cs =>
    if c = lbrace then
      match cs with
      | [] => [c]
      | c2 :: rest =>
        if c2 = lbrace then
          match matchPh rest with
          | some p =>
            match getAssoc vars p.1.1 with
            | some v => v.data ++ interpChars vars p.1.2
            | none =>
              lbrace :: lbrace :: (p.1.1.data ++ rbrace :: rbrace :: interpChars vars p.1.2)
          | none => c :: interpChars vars (c2 :: rest)
        else c :: interpChars vars (c2 :: rest)
    else c :: interpChars vars cs
termination_by l => l.length
decreasing_by
  all_goals simp [List.length_cons]
  all_goals omega

/-- I18n.interpolate: replace every `{{name}}` placeholder using the
variables mapping, leaving placeholders whose variable is undefined
literally in place.  A pure function of its two arguments. -/
def interpolate (text : String) (vars : List (String × String)) : String :=
  String.mk (interpChars vars text.data)

/-- A template part, for the spec-side statement of claim C6: either a
literal run of text or a `{{name}}` placeholder. -/
inductive TPart where
  | lit (s : String)
  | ph (name : String)

/-- Well-formedness of a template part: literal text is brace-free and a
placeholder name is a nonempty run of word characters. -/
def wfPartB : TPart → Bool
  | TPart.lit s => !(s.data.contains lbrace)
  | TPart.ph n => !(n.data.isEmpty) && n.data.all isWordChar

/-- Print a template: literals verbatim, placeholders as `{{name}}`. -/
def printPartsC : List TPart → List Char
  | [] => []
  | TPart.lit s :: ps => s.data ++ printPartsC ps
  | TPart.ph n :: ps =>
    lbrace :: lbrace :: (n.data ++ rbrace :: rbrace :: printPartsC ps)

/-- Modelled from the spec (§4.1 `interpolate`): substitute every
placeholder whose name is in the variables mapping; leave a placeholder
with no matching variable literally in place; keep literals verbatim. -/
def renderPartsC (vars : List (String × String)) : List TPart → List Char
  | [] => []
  | TPart.lit s :: ps => s.data ++ renderPartsC vars ps
  | TPart.ph n :: ps =>
    match getAssoc vars n with
    | some v => v.data ++ renderPartsC vars ps
    | none => lbrace :: lbrace :: (n.data ++ rbrace :: rbrace :: renderPartsC vars ps)

/-- The printed form of a template, as a string. -/
def printParts (ps : List TPart) : String := String.mk (printPartsC ps)

/-- The spec-side rendering of a template, as a string. -/
def renderParts (vars : List (String × String)) (ps : List TPart) : String :=
  String.mk (renderPartsC vars ps)

/-- The fixed supported set from the I18n constructor. -/
def supportedLanguages : List String := ["en", "zh-TW", "zh-CN"]

/-- The default language from the I18n constructor. -/
def defaultLang : String := "en"

/-- The localStorage key from the I18n constructor. -/
def storageKey : String := "mezzofy_language"

/-- The parse outcome of a data-i18n-vars attribute: `JSON.parse` either
throws (malformed) or yields a variables object, modelled by its
string-to-string mapping.  An absent or empty attribute is `none` at the
`Element` level (the code's `if (vars)` treats the empty attribute string
as absent). -/
inductive VarsAttr where
  | malformed
  | parsed (vars : List (String × String))
deriving DecidableEq

/-- The translated content surface of an element, remembering whether it
was last assigned through textContent or through innerHTML. -/
inductive Content where
  | text (s : String)
  | markup (s : String)
deriving DecidableEq

/-- A DOM element as seen by applyTranslations: the data-i18n* attributes
the code reads, and the surfaces it writes. -/
structure Element where
  dataI18n : Option String := none
  dataI18nVars : Option VarsAttr := none
  dataI18nPlaceholder : Option String := none
  dataI18nAlt : Option String := none
  dataI18nTitle : Option String := none
  content : Content := Content.text ""
  placeholderAttr : Option String := none
  altAttr : Option String := none
  titleAttr : Option String := none

/-- The mutable fields of the I18n instance (currentLang and
translations; defaultLang, supportedLanguages and storageKey are never
reassigned and are the constants above). -/
structure I18nState where
  currentLang : String := "en"
  translations : Trans := Trans.obj []

/-- The page-wide state that the I18n methods read and write: the
instance, localStorage (with flags for getItem/setItem throwing), the URL
query parameters, the DOM, the html lang attribute, and the list of
dispatched languageChanged events (by their detail.language payload). -/
structure World where
  i18n : I18nState := {}
  storage : List (String × String) := []
  storageGetFails : Bool := false
  storageSetFails : Bool := false
  urlParams : List (String × String) := []
  dom : List Element := []
  htmlLang : String := ""
  events : List String := []

/-- The `[data-i18n]` pass of I18n.applyTranslations on one element:
apply only truthy string values; with a (nonempty) data-i18n-vars
attribute interpolate into textContent, falling back to the raw text when
JSON.parse throws; otherwise assign via innerHTML when the string
contains '<' and via textContent when not.  A truthy non-string value is
only warned about. -/
def applyTextPass (tr : Trans) (e : Element) : Element :=
  match e.dataI18n with
  | none => e
  | some key =>
    match getTranslation tr key with
    | Trans.str s =>
      if s = "" then e
      else
        match e.dataI18nVars with
        | some (VarsAttr.parsed vars) => { e with content := Content.text (interpolate s vars) }
        | some VarsAttr.malformed => { e with content := Content.text s }
        | none =>
          if strContainsChar s '<' then { e with content := Content.markup s }
          else { e with content := Content.text s }
    | Trans.obj _ => e

/-- One attribute pass of I18n.applyTranslations (placeholder, alt or
title): `if (translation) element.setAttribute(attr, translation)` — the
attribute is set, with JS string coercion, whenever the looked-up value
is truthy; there is no string check on these paths. -/
def applyAttrPass (tr : Trans) (key? : Option String) (old : Option String) : Option String :=
  match key? with
  | none => old
  | some key =>
    let translation := getTranslation tr key
    if truthy translation then some (jsToString translation) else old

/-- I18n.applyTranslations restricted to one element: the text pass then
the three attribute passes (the four document-wide querySelectorAll loops
touch disjoint surfaces, so they factor through each element). -/
def applyToElement (tr : Trans) (e : Element) : Element :=
  let e1 := applyTextPass tr e
  { e1 with
    placeholderAttr := applyAttrPass tr e1.dataI18nPlaceholder e1.placeholderAttr
    altAttr := applyAttrPass tr e1.dataI18nAlt e1.altAttr
    titleAttr := applyAttrPass tr e1.dataI18nTitle e1.titleAttr }

/-- I18n.applyTranslations over the whole document. -/
def applyTranslations (tr : Trans) (dom : List Element) : List Element :=
  dom.map (applyToElement tr)

/-- I18n.loadTranslations: fetch the resource for `lang`; on success the
new tree replaces the old in one assignment; on failure retry once with
the default language; when the default itself fails keep the previous
tree and return false.  The environment `fetchRes` models
fetch + response.ok + response.json(). -/
def loadTranslations (fetchRes : String → Option Trans) (translations : Trans)
    (lang : String) : Trans × Bool :=
  match fetchRes lang with
  | some t => (t, true)
  | none =>
    if h : lang = defaultLang then (translations, false)
    else loadTranslations fetchRes translations defaultLang
termination_by if lang = defaultLang then 0 else 1
decreasing_by simp [h]

/-- I18n.saveLanguage: localStorage.setItem in a try/catch — a throwing
setItem leaves storage unchanged (the warning is swallowed). -/
def saveLanguage (w : World) (lang : String) : World :=
  if w.storageSetFails then w
  else { w with storage := setAssoc w.storage storageKey lang }

/-- I18n.getSavedLanguage: localStorage.getItem in a try/catch; note that
the raw stored value is returned with no supported-set check. -/
def getSavedLanguage (w : World) : Option String :=
  if w.storageGetFails then none
  else getAssoc w.storage storageKey

/-- I18n.getUrlLanguage: the `lang` query parameter, only when truthy and
in the supported set, else null. -/
def getUrlLanguage (w : World) : Option String :=
  match getAssoc w.urlParams "lang" with
  | none => none
  | some v => if v ≠ "" ∧ supportedLanguages.contains v = true then some v else none

/-- I18n.updateUrlLanguage: set the `lang` parameter for a non-default
language, delete it for the default (history.replaceState). -/
def updateUrlLanguage (w : World) (lang : String) : World :=
  if lang ≠ defaultLang then { w with urlParams := setAssoc w.urlParams "lang" lang }
  else { w with urlParams := deleteAssoc w.urlParams "lang" }

/-- I18n.detectBrowserLanguage: exact match of navigator.language against
the supported set, else the first supported language that starts with the
primary subtag, else the default language. -/
def detectBrowserLanguage (navLang : String) : String :=
  if supportedLanguages.contains navLang then navLang
  else
    match (jsSplit '-' navLang).headD "" with
    | langCode =>
      match supportedLanguages.find? (fun lang => strStartsWith lang langCode) with
      | some m => m
      | none => defaultLang

/-- JS `a || b` where `a` is a string-or-null expression: null and the
empty string fall through. -/
def jsOrOpt (a : Option String) (b : String) : String :=
  match a with
  | some s => if s = "" then b else s
  | none => b

/-- JS `a || b` on strings. -/
def jsOr (a b : String) : String := if a = "" then b else a

/-- Step 4 of I18n.init: `urlLang || savedLang || browserLang ||
this.defaultLang` with the three detectors of the source. -/
def resolveInitialLang (w : World) (navLang : String) : String :=
  jsOrOpt (getUrlLanguage w)
    (jsOrOpt (getSavedLanguage w) (jsOr (detectBrowserLanguage navLang) defaultLang))

/-- I18n.init: resolve the initial language, load its translations
(with the loadTranslations fallback), apply them to the DOM and set the
html lang attribute.  The loading-class toggling on body is not
modelled. -/
def init (fetchRes : String → Option Trans) (navLang : String) (w : World) : World :=
  let lang := resolveInitialLang w navLang
  let p := loadTranslations fetchRes w.i18n.translations lang
  { w with
    i18n := { currentLang := lang, translations := p.1 }
    dom := applyTranslations p.1 w.dom
    htmlLang := lang }

/-- I18n.switchLanguage: reject an unsupported language with no state
change; otherwise load (ignoring the load result), set currentLang, save
the preference, re-apply the DOM, set the html lang attribute, update the
URL, dispatch languageChanged, and return true.  The transient opacity
change is not modelled. -/
def switchLanguage (fetchRes : String → Option Trans) (w : World) (lang : String) :
    World × Bool :=
  if !(supportedLanguages.contains lang) then (w, false)
  else
    let p := loadTranslations fetchRes w.i18n.translations lang
    let w1 := { w with i18n := { currentLang := lang, translations := p.1 } }
    let w2 := saveLanguage w1 lang
    let w3 := { w2 with dom := applyTranslations w2.i18n.translations w2.dom, htmlLang := lang }
    let w4 := updateUrlLanguage w3 lang
    let w5 := { w4 with events := w4.events ++ [lang] }
    (w5, true)

/-- I18n.getCurrentLanguage. -/
def getCurrentLanguage (w : World) : String := w.i18n.currentLang

/-! Concrete inputs used by the example conjuncts, counterexamples and
witnesses below. -/

/-- The spec's example tree `{a:{b:{c:"x"}}}`. -/
def exTreeABC : Trans :=
  Trans.obj [("a", Trans.obj [("b", Trans.obj [("c", Trans.str "x")])])]

/-- The spec's example tree `{a:{b:{}}}`. -/
def exTreeAB : Trans := Trans.obj [("a", Trans.obj [("b", Trans.obj [])])]

/-- A small English translation tree. -/
def trEn : Trans := Trans.obj [("nav", Trans.obj [("home", Trans.str "Home")])]

/-- A fetch environment in which only `en.json` exists. -/
def fetchEnOnly : String → Option Trans := fun lang =>
  if lang = "en" then some trEn else none

/-- A fetch environment in which every fetch fails. -/
def fetchNone : String → Option Trans := fun _ => none

/-- The world right after the I18n constructor runs on a fresh page. -/
def wBase : World := {}

/-- A world whose localStorage holds the unsupported code "fr" under the
language key (for example written by a user or an older page version). -/
def wSavedFr : World := { storage := [(storageKey, "fr")] }

/-- A tree in which the key "menu" resolves to a subtree, not a string. -/
def trMenuSub : Trans :=
  Trans.obj [("menu", Trans.obj [("home", Trans.str "Home")])]

/-- An element whose placeholder-translation key resolves to a subtree. -/
def ePlaceholderSub : Element := { dataI18nPlaceholder := some "menu" }

/-- An element whose text-translation key resolves to a subtree. -/
def eTextSub : Element := { dataI18n := some "menu", content := Content.text "old" }

/-- A tree in which the key "a" resolves to the empty string. -/
def trEmptyA : Trans := Trans.obj [("a", Trans.str "")]

/-- A text-translation element with prior textContent "x" and key "a". -/
def eTextA : Element := { dataI18n := some "a", content := Content.text "x" }

/-- A tree in which the key "a" resolves to a string containing '<'. -/
def trMarkupA : Trans := Trans.obj [("a", Trans.str "x<b>y</b>")]

/-- The two-part template `Hi {{name}}` of the spec's interpolate
examples. -/
def tmplHiName : List TPart := [TPart.lit "Hi ", TPart.ph "name"]

/-! Helper lemmas. -/

/-- The getTranslation loop is the monadic fold of stepField. -/
theorem walk_eq_foldlM (segs : List String) (tr : Trans) :
    walk segs tr = segs.foldlM stepField tr := by
  induction segs generalizing tr with
  | nil => simp [walk, List.foldlM]
  | cons k ks ih =>
    cases tr with
    | str s => simp [walk, List.foldlM, stepField]
    | obj fields =>
      simp only [walk, List.foldlM_cons, stepField]
      cases lookupField fields k with
      | none => simp
      | some v => simp [ih]

/-- loadTranslations on a successful fetch. -/
theorem loadTranslations_fetch_some (fetchRes : String → Option Trans) (tr t : Trans)
    (lang : String) (h : fetchRes lang = some t) :
    loadTranslations fetchRes tr lang = (t, true) := by
  rw [loadTranslations, h]

/-- loadTranslations retries exactly once with the default language. -/
theorem loadTranslations_retry (fetchRes : String → Option Trans) (tr : Trans)
    (lang : String) (h : fetchRes lang = none) (hne : lang ≠ defaultLang) :
    loadTranslations fetchRes tr lang = loadTranslations fetchRes tr defaultLang := by
  rw [loadTranslations, h]
  simp [hne]

/-- loadTranslations when both the requested and the default fetch fail. -/
theorem loadTranslations_fail (fetchRes : String → Option Trans) (tr : Trans)
    (lang : String) (h : fetchRes lang = none) (hd : fetchRes defaultLang = none) :
    loadTranslations fetchRes tr lang = (tr, false) := by
  by_cases hne : lang = defaultLang
  · subst hne
    rw [loadTranslations, h]
    simp
  · rw [loadTranslations_retry fetchRes tr lang h hne, loadTranslations, hd]
    simp

/-- The result flag of switchLanguage on a supported language. -/
theorem switchLanguage_snd_pos (fetchRes : String → Option Trans) (w : World)
    (lang : String) (h : supportedLanguages.contains lang = true) :
    (switchLanguage fetchRes w lang).2 = true := by
  have hmem : lang ∈ supportedLanguages := by simpa using h
  simp [switchLanguage, hmem]

/-- currentLang after switchLanguage on a supported language. -/
theorem switchLanguage_currentLang (fetchRes : String → Option Trans) (w : World)
    (lang : String) (h : supportedLanguages.contains lang = true) :
    (switchLanguage fetchRes w lang).1.i18n.currentLang = lang := by
  have hmem : lang ∈ supportedLanguages := by simpa using h
  have hneg : (!(supportedLanguages.contains lang)) ≠ true := by simp [hmem]
  unfold switchLanguage
  rw [if_neg hneg]
  simp only [saveLanguage, updateUrlLanguage]
  split <;> split <;> rfl

/-- The translation tree after switchLanguage on a supported language. -/
theorem switchLanguage_translations (fetchRes : String → Option Trans) (w : World)
    (lang : String) (h : supportedLanguages.contains lang = true) :
    (switchLanguage fetchRes w lang).1.i18n.translations =
      (loadTranslations fetchRes w.i18n.translations lang).1 := by
  have hmem : lang ∈ supportedLanguages := by simpa using h
  have hneg : (!(supportedLanguages.contains lang)) ≠ true := by simp [hmem]
  unfold switchLanguage
  rw [if_neg hneg]
  simp only [saveLanguage, updateUrlLanguage]
  split <;> split <;> rfl

/-- localStorage after switchLanguage on a supported language. -/
theorem switchLanguage_storage (fetchRes : String → Option Trans) (w : World)
    (lang : String) (h : supportedLanguages.contains lang = true) :
    (switchLanguage fetchRes w lang).1.storage =
      if w.storageSetFails then w.storage else setAssoc w.storage storageKey lang := by
  have hmem : lang ∈ supportedLanguages := by simpa using h
  have hneg : (!(supportedLanguages.contains lang)) ≠ true := by simp [hmem]
  unfold switchLanguage
  rw [if_neg hneg]
  simp only [saveLanguage, updateUrlLanguage]
  split <;> split <;> rfl

/-- The URL parameters after switchLanguage on a supported language. -/
theorem switchLanguage_urlParams (fetchRes : String → Option Trans) (w : World)
    (lang : String) (h : supportedLanguages.contains lang = true) :
    (switchLanguage fetchRes w lang).1.urlParams =
      if lang ≠ defaultLang then setAssoc w.urlParams "lang" lang
      else deleteAssoc w.urlParams "lang" := by
  have hmem : lang ∈ supportedLanguages := by simpa using h
  have hneg : (!(supportedLanguages.contains lang)) ≠ true := by simp [hmem]
  unfold switchLanguage
  rw [if_neg hneg]
  simp only [saveLanguage, updateUrlLanguage]
  split <;> split <;> rfl

/-- getAssoc after setAssoc at the same key. -/
theorem getAssoc_setAssoc_self (l : List (String × String)) (k v : String) :
    getAssoc (setAssoc l k v) k = some v := by
  induction l with
  | nil => simp [setAssoc, getAssoc]
  | cons p rest ih =>
    by_cases hk : p.1 = k
    · simp [setAssoc, hk, getAssoc]
    · simp [setAssoc, hk, getAssoc, ih]

/-- getAssoc after deleteAssoc at the same key. -/
theorem getAssoc_deleteAssoc_self (l : List (String × String)) (k : String) :
    getAssoc (deleteAssoc l k) k = none := by
  induction l with
  | nil => simp [deleteAssoc, getAssoc]
  | cons p rest ih =>
    by_cases hk : p.1 = k
    · simp [deleteAssoc, hk, ih]
    · simp [deleteAssoc, hk, getAssoc, ih]

/-! Claim theorems. -/

/-- C5: getTranslation splits the key on '.', walks the tree segment by
segment, and returns the original dotted key unchanged when any segment
is absent or a non-container value is reached before the segments are
exhausted, else the value at the path — stated as agreement with the
spec-side fold getTranslationSpec, for every key and tree.  It is a total
Lean function, so it never raises.  The closed conjuncts are the spec's
worked examples. -/
theorem getTranslation_path_lookup :
    (∀ tr key, getTranslation tr key = getTranslationSpec tr key)
    ∧ getTranslation exTreeABC "a.b.c" = Trans.str "x"
    ∧ getTranslation exTreeAB "a.b.c" = Trans.str "a.b.c" := by
  refine ⟨fun tr key => ?_, rfl, rfl⟩
  simp [getTranslation, getTranslationSpec, walk_eq_foldlM]

/-- C2: switchLanguage on a language outside the supported set returns
false and changes no state at all — the current language, translation
tree, stored preference, URL parameters, DOM and event list are exactly
as before. -/
theorem switchLanguage_unsupported_rejects (fetchRes : String → Option Trans)
    (w : World) (lang : String) (h : supportedLanguages.contains lang = false) :
    switchLanguage fetchRes w lang = (w, false) := by
  have hnmem : lang ∉ supportedLanguages := by simpa using h
  simp [switchLanguage, hnmem]

/-- Witness for C2 at lang = "fr". -/
theorem switchLanguage_unsupported_rejects_witness :
    supportedLanguages.contains "fr" = false
    ∧ switchLanguage fetchNone wBase "fr" = (wBase, false) :=
  ⟨by decide, switchLanguage_unsupported_rejects fetchNone wBase "fr" (by decide)⟩

/-- C3: loadTranslations replaces the tree atomically on success (the
result is exactly the fetched tree, with success); on failure for a
non-default language it retries exactly once more, with the default
language; when the default itself fails the previously held tree is kept
unchanged and failure is returned. -/
theorem loadTranslations_fallback_policy (fetchRes : String → Option Trans)
    (tr : Trans) (lang : String) :
    (∀ t, fetchRes lang = some t → loadTranslations fetchRes tr lang = (t, true))
    ∧ (fetchRes lang = none → lang ≠ defaultLang →
        loadTranslations fetchRes tr lang = loadTranslations fetchRes tr defaultLang)
    ∧ (∀ t, fetchRes lang = none → lang ≠ defaultLang → fetchRes defaultLang = some t →
        loadTranslations fetchRes tr lang = (t, true))
    ∧ (fetchRes lang = none → fetchRes defaultLang = none →
        loadTranslations fetchRes tr lang = (tr, false)) := by
  refine ⟨fun t ht => loadTranslations_fetch_some _ _ _ _ ht,
    fun hn hne => loadTranslations_retry _ _ _ hn hne,
    fun t hn hne hd => ?_,
    fun hn hd => loadTranslations_fail _ _ _ hn hd⟩
  rw [loadTranslations_retry _ _ _ hn hne, loadTranslations_fetch_some _ _ _ _ hd]

/-- Witness for C3: requesting zh-TW when only en.json exists loads the
English tree with success; when nothing exists the empty initial tree is
kept and failure is returned. -/
theorem loadTranslations_fallback_policy_witness :
    fetchEnOnly "zh-TW" = none ∧ fetchEnOnly defaultLang = some trEn
    ∧ loadTranslations fetchEnOnly (Trans.obj []) "zh-TW" = (trEn, true)
    ∧ loadTranslations fetchNone (Trans.obj []) "zh-TW" = (Trans.obj [], false) :=
  ⟨rfl, rfl,
    (loadTranslations_fallback_policy fetchEnOnly (Trans.obj []) "zh-TW").2.2.1 trEn rfl
      (by decide) rfl,
    (loadTranslations_fallback_policy fetchNone (Trans.obj []) "zh-TW").2.2.2 rfl rfl⟩

/-- C10: switchLanguage on any supported language returns true, for every
fetch environment — in particular even when both the requested language's
resource and the default's fail, the load failure is invisible in the
return value. -/
theorem switchLanguage_supported_returns_true (fetchRes : String → Option Trans)
    (w : World) (lang : String) (h : supportedLanguages.contains lang = true) :
    (switchLanguage fetchRes w lang).2 = true :=
  switchLanguage_snd_pos fetchRes w lang h

/-- Witness for C10 in the environment where every fetch fails. -/
theorem switchLanguage_supported_returns_true_witness :
    supportedLanguages.contains "zh-CN" = true ∧ fetchNone "zh-CN" = none
    ∧ fetchNone defaultLang = none
    ∧ (switchLanguage fetchNone wBase "zh-CN").2 = true :=
  ⟨by decide, rfl, rfl,
    switchLanguage_supported_returns_true fetchNone wBase "zh-CN" (by decide)⟩

/-- C4: for a supported non-default language whose resource fails to load
while the default's loads, switchLanguage leaves the default language's
tree in the store while getCurrentLanguage reports the requested
non-default code — selected language and loaded content disagree. -/
theorem switchLanguage_failed_load_mismatch (fetchRes : String → Option Trans)
    (w : World) (lang : String) (t : Trans)
    (hsup : supportedLanguages.contains lang = true)
    (hne : lang ≠ defaultLang)
    (hfail : fetchRes lang = none)
    (hdef : fetchRes defaultLang = some t) :
    (switchLanguage fetchRes w lang).1.i18n.translations = t
    ∧ getCurrentLanguage (switchLanguage fetchRes w lang).1 = lang := by
  constructor
  · rw [switchLanguage_translations fetchRes w lang hsup,
      loadTranslations_retry _ _ _ hfail hne,
      loadTranslations_fetch_some _ _ _ _ hdef]
  · simp only [getCurrentLanguage]
    exact switchLanguage_currentLang fetchRes w lang hsup

/-- Witness for C4: switching to zh-TW when only en.json exists. -/
theorem switchLanguage_failed_load_mismatch_witness :
    fetchEnOnly "zh-TW" = none ∧ fetchEnOnly defaultLang = some trEn
    ∧ (switchLanguage fetchEnOnly wBase "zh-TW").1.i18n.translations = trEn
    ∧ getCurrentLanguage (switchLanguage fetchEnOnly wBase "zh-TW").1 = "zh-TW" := by
  have h := switchLanguage_failed_load_mismatch fetchEnOnly wBase "zh-TW" trEn
    (by decide) (by decide) rfl rfl
  exact ⟨rfl, rfl, h.1, h.2⟩

/-- C8: a successful switchLanguage persists the language to the storage
slot when setItem works; a setItem failure is swallowed (storage
untouched, the call still succeeds); and the `lang` URL parameter ends up
present exactly when the language differs from the default — a
non-default language sets it to lang, the default deletes it. -/
theorem switchLanguage_persistence (fetchRes : String → Option Trans) (w : World)
    (lang : String) (h : supportedLanguages.contains lang = true) :
    (w.storageSetFails = false →
        getAssoc (switchLanguage fetchRes w lang).1.storage storageKey = some lang)
    ∧ (w.storageSetFails = true →
        (switchLanguage fetchRes w lang).1.storage = w.storage
        ∧ (switchLanguage fetchRes w lang).2 = true)
    ∧ (lang ≠ defaultLang →
        getAssoc (switchLanguage fetchRes w lang).1.urlParams "lang" = some lang)
    ∧ (lang = defaultLang →
        getAssoc (switchLanguage fetchRes w lang).1.urlParams "lang" = none) := by
  refine ⟨fun hs => ?_, fun hs => ⟨?_, switchLanguage_snd_pos fetchRes w lang h⟩,
    fun hne => ?_, fun hd => ?_⟩
  · rw [switchLanguage_storage fetchRes w lang h, hs]
    simp [getAssoc_setAssoc_self]
  · rw [switchLanguage_storage fetchRes w lang h, hs]
    simp
  · rw [switchLanguage_urlParams fetchRes w lang h, if_pos hne,
      getAssoc_setAssoc_self]
  · rw [switchLanguage_urlParams fetchRes w lang h, if_neg (by simp [hd]),
      getAssoc_deleteAssoc_self]

/-- Witness for C8: switching to zh-TW stores and sets the parameter;
switching to en (the default) removes the parameter. -/
theorem switchLanguage_persistence_witness :
    getAssoc (switchLanguage fetchNone wBase "zh-TW").1.storage storageKey = some "zh-TW"
    ∧ getAssoc (switchLanguage fetchNone wBase "zh-TW").1.urlParams "lang" = some "zh-TW"
    ∧ getAssoc (switchLanguage fetchNone wBase "en").1.urlParams "lang" = none := by
  have h1 := switchLanguage_persistence fetchNone wBase "zh-TW" (by decide)
  have h2 := switchLanguage_persistence fetchNone wBase "en" (by decide)
  exact ⟨h1.1 rfl, h1.2.2.1 (by decide), h2.2.2.2 rfl⟩

/-- The text pass only ever reassigns the content surface: every other
field of the element is preserved. -/
theorem applyTextPass_eq_set_content (tr : Trans) (e : Element) :
    applyTextPass tr e = { e with content := (applyTextPass tr e).content } := by
  cases h : e.dataI18n with
  | none => simp [applyTextPass, h]; rw [← h]
  | some key =>
    cases h2 : getTranslation tr key with
    | obj fs => simp [applyTextPass, h, h2]; rw [← h]
    | str s =>
      by_cases h3 : s = ""
      · simp [applyTextPass, h, h2, h3]; rw [← h]
      · cases h4 : e.dataI18nVars with
        | none =>
          simp only [applyTextPass, h, h2, h3, h4, if_false, if_neg h3]
          split <;> rfl
        | some va => cases va <;> simp [applyTextPass, h, h2, h3, h4]

/-- Membership in the supported set, in contains form. -/
theorem contains_of_mem {s : String} (h : s ∈ supportedLanguages) :
    supportedLanguages.contains s = true := by
  simpa using h

/-- getUrlLanguage only ever returns a nonempty supported code. -/
theorem getUrlLanguage_spec (w : World) (u : String) (h : getUrlLanguage w = some u) :
    u ≠ "" ∧ supportedLanguages.contains u = true := by
  unfold getUrlLanguage at h
  cases hg : getAssoc w.urlParams "lang" with
  | none => exact Option.noConfusion (hg ▸ h)
  | some v =>
    simp only [hg] at h
    by_cases hc : v ≠ "" ∧ supportedLanguages.contains v = true
    · rw [if_pos hc] at h
      cases h
      exact hc
    · rw [if_neg hc] at h
      exact absurd h (by simp)

/-- detectBrowserLanguage always lands in the supported set: either an
exact match, a find? hit (hence a member), or the default language. -/
theorem detect_mem (nav : String) :
    supportedLanguages.contains (detectBrowserLanguage nav) = true := by
  unfold detectBrowserLanguage
  split
  · assumption
  · cases hf : supportedLanguages.find?
        (fun lang => strStartsWith lang ((jsSplit '-' nav).headD "")) with
    | some m =>
      simp only [hf]
      exact contains_of_mem (List.mem_of_find?_eq_some hf)
    | none =>
      simp only [hf]
      decide

/-- detectBrowserLanguage never returns the empty string. -/
theorem detect_ne_empty (nav : String) : detectBrowserLanguage nav ≠ "" := by
  intro hempty
  have h := detect_mem nav
  rw [hempty] at h
  exact absurd h (by decide)

/-- C7 counterexample: an element whose placeholder-translation key
resolves to a subtree is not left unapplied — the placeholder attribute,
previously absent, is set to the coerced string "[object Object]". -/
theorem applyTranslations_attr_coercion_counterexample :
    getTranslation trMenuSub "menu" = Trans.obj [("home", Trans.str "Home")]
    ∧ ePlaceholderSub.placeholderAttr = none
    ∧ (applyToElement trMenuSub ePlaceholderSub).placeholderAttr = some "[object Object]" :=
  ⟨rfl, rfl, rfl⟩

/-- C7 (amended): a text-translation element whose key resolves to a
non-string subtree is left unapplied (diagnostic only, never coerced),
but a placeholder/alt/title attribute-translation element whose key
resolves to a subtree has its attribute set to the JS-coerced string
"[object Object]". -/
theorem applyTranslations_nonstring_policy (tr : Trans) (e : Element)
    (key : String) (fs : List (String × Trans))
    (hres : getTranslation tr key = Trans.obj fs) :
    (e.dataI18n = some key → (applyToElement tr e).content = e.content)
    ∧ (e.dataI18nPlaceholder = some key →
        (applyToElement tr e).placeholderAttr = some "[object Object]")
    ∧ (e.dataI18nAlt = some key →
        (applyToElement tr e).altAttr = some "[object Object]")
    ∧ (e.dataI18nTitle = some key →
        (applyToElement tr e).titleAttr = some "[object Object]") := by
  have hset := applyTextPass_eq_set_content tr e
  refine ⟨fun hk => ?_, fun hk => ?_, fun hk => ?_, fun hk => ?_⟩
  · simp only [applyToElement]
    rw [hset]
    simp [applyTextPass, hk, hres]
  all_goals
    simp only [applyToElement]
    rw [hset]
    simp [applyAttrPass, hk, hres, truthy, jsToString]

/-- Witness for the amended C7: the subtree key leaves the text element's
content untouched but sets the placeholder attribute to the coerced
string. -/
theorem applyTranslations_nonstring_policy_witness :
    (applyToElement trMenuSub eTextSub).content = Content.text "old"
    ∧ (applyToElement trMenuSub eTextSub).placeholderAttr = none := by
  have h := applyTranslations_nonstring_policy trMenuSub eTextSub "menu"
    [("home", Trans.str "Home")] rfl
  exact ⟨h.1 rfl, rfl⟩

/-- C9 counterexample: the key "a" resolves to the empty string — a
string, and one without '<' — yet nothing is assigned: the element keeps
its old textContent "x" instead of receiving "" (the empty string is
falsy, so the code skips the element entirely). -/
theorem text_assignment_empty_counterexample :
    getTranslation trEmptyA "a" = Trans.str ""
    ∧ strContainsChar "" '<' = false
    ∧ (applyToElement trEmptyA eTextA).content = Content.text "x"
    ∧ Content.text "x" ≠ Content.text "" :=
  ⟨rfl, rfl, rfl, by decide⟩

/-- C9 (amended): for a text-translation element without a variables
payload whose key resolves to a nonempty string, the string is assigned
via innerHTML when it contains '<' and via textContent otherwise (an
empty string — falsy in JS — is skipped entirely, which the nonemptiness
hypothesis excludes). -/
theorem text_assignment_policy (tr : Trans) (e : Element) (key s : String)
    (hkey : e.dataI18n = some key)
    (hvars : e.dataI18nVars = none)
    (hres : getTranslation tr key = Trans.str s)
    (hs : s ≠ "") :
    (applyToElement tr e).content =
      if strContainsChar s '<' then Content.markup s else Content.text s := by
  simp only [applyToElement]
  rw [applyTextPass_eq_set_content tr e]
  simp only [applyTextPass, hkey, hres, hvars, if_neg hs]
  split <;> rfl

/-- Witness for the amended C9: a string containing '<' is assigned as
markup. -/
theorem text_assignment_policy_witness :
    (applyToElement trMarkupA { dataI18n := some "a" }).content
      = Content.markup "x<b>y</b>" := by
  have h := text_assignment_policy trMarkupA { dataI18n := some "a" } "a" "x<b>y</b>"
    rfl rfl rfl (by decide)
  exact h.trans (by rfl)

/-- C1 counterexample: with no URL parameter, a stored preference "fr"
(unsupported) and browser locale "en-US", the claim's resolution would
skip the unsupported stored value and land on "en"; the code instead
takes the saved value unchecked, so the unsupported code "fr" becomes the
initial current language. -/
theorem init_resolution_counterexample :
    getUrlLanguage wSavedFr = none
    ∧ getSavedLanguage wSavedFr = some "fr"
    ∧ supportedLanguages.contains "fr" = false
    ∧ detectBrowserLanguage "en-US" = "en"
    ∧ resolveInitialLang wSavedFr "en-US" = "fr"
    ∧ (init fetchNone "en-US" wSavedFr).i18n.currentLang = "fr" :=
  ⟨rfl, rfl, by decide, rfl, rfl, rfl⟩

/-- C1 (amended): init applies exactly the resolved language, and the
resolution picks the first present of: the URL parameter's value (which
is only ever produced when nonempty and in the supported set), then the
stored preference whenever it is present and nonempty — with no
supported-set check — then the browser-reported locale via
detectBrowserLanguage (exact match, else first supported code having the
locale's primary subtag as a prefix, else the default), which always
lands in the supported set.  Hence only an unsupported stored preference
can make the initial language leave the supported set. -/
theorem init_resolution_amended (fetchRes : String → Option Trans) (w : World)
    (nav : String) :
    (init fetchRes nav w).i18n.currentLang = resolveInitialLang w nav
    ∧ (∀ u, getUrlLanguage w = some u →
        resolveInitialLang w nav = u ∧ supportedLanguages.contains u = true)
    ∧ (∀ s, getUrlLanguage w = none → getSavedLanguage w = some s → s ≠ "" →
        resolveInitialLang w nav = s)
    ∧ (getUrlLanguage w = none →
        getSavedLanguage w = none ∨ getSavedLanguage w = some "" →
        resolveInitialLang w nav = detectBrowserLanguage nav)
    ∧ supportedLanguages.contains (detectBrowserLanguage nav) = true := by
  refine ⟨by simp [init], fun u hu => ?_, fun s hurl hsaved hs => ?_,
    fun hurl hsaved => ?_, detect_mem nav⟩
  · obtain ⟨hne, hmem⟩ := getUrlLanguage_spec w u hu
    exact ⟨by simp [resolveInitialLang, hu, jsOrOpt, hne], hmem⟩
  · simp [resolveInitialLang, hurl, hsaved, jsOrOpt, hs]
  · have hd := detect_ne_empty nav
    cases hsaved with
    | inl h0 => simp [resolveInitialLang, hurl, h0, jsOrOpt, jsOr, hd]
    | inr h0 => simp [resolveInitialLang, hurl, h0, jsOrOpt, jsOr, hd]

/-- Witness for the amended C1: the stored-preference conjunct applied to
the world whose storage holds the unsupported "fr". -/
theorem init_resolution_amended_witness :
    getUrlLanguage wSavedFr = none ∧ getSavedLanguage wSavedFr = some "fr"
    ∧ resolveInitialLang wSavedFr "zh-CN" = "fr" := by
  have h := init_resolution_amended fetchNone wSavedFr "zh-CN"
  exact ⟨rfl, rfl, h.2.2.1 "fr" rfl rfl (by decide)⟩

/-- Greedy munch of a word run followed by a non-word remainder. -/
theorem takeWordSub_append (w r : List Char)
    (hw : ∀ c ∈ w, isWordChar c = true)
    (hr : ∀ d ds, r = d :: ds → isWordChar d = false) :
    (takeWordSub (w ++ r)).1 = (w, r) := by
  induction w with
  | nil =>
    cases r with
    | nil => rfl
    | cons d ds =>
      have hd : isWordChar d = false := hr d ds rfl
      simp [takeWordSub, hd]
  | cons c w' ih =>
    have hc : isWordChar c = true := hw c (by simp)
    have ih' := ih (fun x hx => hw x (by simp [hx]))
    simp [takeWordSub, hc, ih']

/-- A nonempty word run followed by two closing braces is recognised as a
placeholder body. -/
theorem matchPh_word (w rest : List Char) (hne : w ≠ [])
    (hw : ∀ c ∈ w, isWordChar c = true) :
    ∃ h, matchPh (w ++ rbrace :: rbrace :: rest) = some ⟨(String.mk w, rest), h⟩ := by
  have hr : ∀ d ds, rbrace :: rbrace :: rest = d :: ds → isWordChar d = false := by
    intro d ds hdd
    injection hdd with h1 _
    rw [← h1]
    decide
  have ht := takeWordSub_append w (rbrace :: rbrace :: rest) hw hr
  rcases htk : takeWordSub (w ++ rbrace :: rbrace :: rest) with ⟨⟨w', r'⟩, hb⟩
  rw [htk] at ht
  simp only [Prod.mk.injEq] at ht
  obtain ⟨hw1, hr1⟩ := ht
  subst hw1
  subst hr1
  refine ⟨by simpa using hb, ?_⟩
  unfold matchPh
  rw [htk]
  simp [hne]

/-- The scanner on the empty text. -/
theorem interpChars_nil (vars : List (String × String)) : interpChars vars [] = [] := by
  simp [interpChars]

/-- The scanner steps over a character that cannot open a placeholder. -/
theorem interpChars_cons_ne (vars : List (String × String)) (c : Char) (l : List Char)
    (hc : c ≠ lbrace) :
    interpChars vars (c :: l) = c :: interpChars vars l := by
  rw [interpChars.eq_def]
  simp [hc]

/-- The scanner at a well-formed placeholder: replace when the variable
is defined, keep the matched text otherwise, and continue after the
match in both cases. -/
theorem interpChars_ph (vars : List (String × String)) (w rest : List Char)
    (hne : w ≠ []) (hw : ∀ c ∈ w, isWordChar c = true) :
    interpChars vars (lbrace :: lbrace :: (w ++ rbrace :: rbrace :: rest)) =
      (match getAssoc vars (String.mk w) with
       | some v => v.data ++ interpChars vars rest
       | none => lbrace :: lbrace :: (w ++ rbrace :: rbrace :: interpChars vars rest)) := by
  obtain ⟨hpf, hm⟩ := matchPh_word w rest hne hw
  rw [interpChars.eq_def]
  simp only [if_pos rfl]
  rw [hm]
  cases hga : getAssoc vars (String.mk w) <;> simp [hga]

/-- The scanner passes over brace-free literal text verbatim. -/
theorem interpChars_append_lit (vars : List (String × String)) (l rest : List Char)
    (hl : lbrace ∉ l) :
    interpChars vars (l ++ rest) = l ++ interpChars vars rest := by
  induction l with
  | nil => simp
  | cons c l' ih =>
    have hc : c ≠ lbrace := fun h => hl (by simp [h])
    have hl' : lbrace ∉ l' := fun h => hl (by simp [h])
    simp only [List.cons_append]
    rw [interpChars_cons_ne vars c (l' ++ rest) hc, ih hl']

/-- The scanner agrees with the spec-side rendering on every well-formed
template. -/
theorem interpChars_printParts (vars : List (String × String)) (ps : List TPart)
    (hwf : ∀ p ∈ ps, wfPartB p = true) :
    interpChars vars (printPartsC ps) = renderPartsC vars ps := by
  induction ps with
  | nil => simp [printPartsC, renderPartsC, interpChars_nil]
  | cons p ps' ih =>
    have hwfp := hwf p (by simp)
    have hwf' : ∀ q ∈ ps', wfPartB q = true := fun q hq => hwf q (by simp [hq])
    cases p with
    | lit s =>
      have hl : lbrace ∉ s.data := by simpa [wfPartB] using hwfp
      simp only [printPartsC, renderPartsC]
      rw [interpChars_append_lit vars s.data (printPartsC ps') hl, ih hwf']
    | ph n =>
      simp only [wfPartB, Bool.and_eq_true, Bool.not_eq_true'] at hwfp
      have hne : n.data ≠ [] := by
        intro h0
        rw [h0] at hwfp
        simp at hwfp
      have hword : ∀ c ∈ n.data, isWordChar c = true := by
        have := hwfp.2
        simpa [List.all_eq_true] using this
      simp only [printPartsC, renderPartsC]
      rw [interpChars_ph vars n.data (printPartsC ps') hne hword]
      cases hga : getAssoc vars n <;> simp [hga, ih hwf']

/-- C6: interpolate replaces every `{{name}}` placeholder with the
variables entry for name and leaves any placeholder with no matching
variable literally in place — stated as agreement with the spec-side
rendering on every well-formed template (brace-free literals,
word-character placeholder names) and every variables mapping.  Being a
plain Lean function of its arguments, it is pure. -/
theorem interpolate_refines_render (ps : List TPart) (vars : List (String × String))
    (hwf : ∀ p ∈ ps, wfPartB p = true) :
    interpolate (printParts ps) vars = renderParts vars ps := by
  show String.mk (interpChars vars (printPartsC ps)) = String.mk (renderPartsC vars ps)
  exact congrArg String.mk (interpChars_printParts vars ps hwf)

/-- Witness for C6: the spec's two worked examples, obtained from the
refinement theorem at the template `Hi {{name}}`. -/
theorem interpolate_refines_render_witness :
    interpolate "Hi \x7b\x7bname\x7d\x7d" [("name", "Sam")] = "Hi Sam"
    ∧ interpolate "Hi \x7b\x7bname\x7d\x7d" [] = "Hi \x7b\x7bname\x7d\x7d" := by
  have h1 := interpolate_refines_render tmplHiName [("name", "Sam")] (by decide)
  have h2 := interpolate_refines_render tmplHiName [] (by decide)
  have e1 : printParts tmplHiName = "Hi \x7b\x7bname\x7d\x7d" := rfl
  have e2 : renderParts [("name", "Sam")] tmplHiName = "Hi Sam" := rfl
  have e3 : renderParts [] tmplHiName = "Hi \x7b\x7bname\x7d\x7d" := rfl
  rw [e1, e2] at h1
  rw [e1, e3] at h2
  exact ⟨h1, h2⟩

end I18n
